import Mathlib

/-!
Shallow embedding of the interactive inpainting engine in `src/inp.py`
(class `GenerativeInpaintingApp`).

Modelling conventions:
* An image (`self.image`, a decoded PIL RGBA image) is a record of its
  dimensions and a flat list of pixel bytes; an encoded file and the decode
  step are external collaborators, so `load_image` is modelled on its
  success path, taking the already-decoded buffer as an argument.
* The mask (`self.mask`, a PIL mode-L image) is likewise dimensions plus a
  flat list of single-channel intensities.
* The rasterizer (`ImageDraw.line`) is external; which pixels a line
  segment covers is abstracted as a selection function `sel : Nat → Bool`
  over flat pixel indices.  What the source fixes — and what we model — is
  that every covered pixel is written with the fill value 255 (line 282).
* Python floats (`display_scale`, canvas coordinates) are modelled as ℚ.
* Python list `append`/`pop` act at the end of the list; here a stack is a
  Lean list with the most recent element first (`::` = append, head = pop).
* UI-only state (status bar text, the Tk display image, `original_image`,
  `current_image_path`) is not referenced by any claim and is omitted;
  `update_display` only recomputes the displayed frame and mutates none of
  the modelled fields, so it disappears in the embedding.
-/

/-- A decoded RGBA image buffer (what `self.image` holds after
`Image.open(path).convert('RGBA')`, src/inp.py line 234): explicit
dimensions plus flattened pixel bytes. -/
structure Img where
  width : Nat
  height : Nat
  data : List Nat
deriving DecidableEq

/-- A single-channel mask buffer (what `self.mask` holds: a PIL mode-L
image): dimensions plus flattened per-pixel intensities 0–255. -/
structure Mask where
  width : Nat
  height : Nat
  data : List Nat
deriving DecidableEq

/-- Zero-filled mask of the given size: `Image.new('L', self.image.size, 0)`
(src/inp.py line 273). -/
def Mask.zeroOf (w h : Nat) : Mask :=
  ⟨w, h, List.replicate (w * h) 0⟩

/-- Write the fill value 255 at every flat index picked by `sel`, keeping
other pixels: the buffer effect of `draw.line(..., fill=255, ...)`
(src/inp.py lines 277–284), with the rasterizer's choice of covered
pixels abstracted into `sel`. -/
def paintData (sel : Nat → Bool) : Nat → List Nat → List Nat
  | _, [] => []
  | i, v :: rest => (if sel i then 255 else v) :: paintData sel (i + 1) rest

/-- Apply one rasterized line segment to a mask (src/inp.py lines 274–284);
dimensions are untouched, covered pixels become 255. -/
def Mask.paint (m : Mask) (sel : Nat → Bool) : Mask :=
  ⟨m.width, m.height, paintData sel 0 m.data⟩

/-- The application state: the fields of `GenerativeInpaintingApp`
initialised in `__init__` (src/inp.py lines 16–29) that the engine
mutates. -/
structure AppState where
  image : Option Img
  mask : Option Mask
  display_scale : ℚ
  drawing : Bool
  brush_size : Nat
  last_x : Option ℚ
  last_y : Option ℚ
  undo_stack : List Mask
  redo_stack : List Mask
deriving DecidableEq

/-- The state right after `__init__` (src/inp.py lines 16–29): no image, no
mask, scale 1.0, not drawing, brush size 15, empty history. -/
def initState : AppState :=
  { image := none, mask := none, display_scale := 1, drawing := false,
    brush_size := 15, last_x := none, last_y := none,
    undo_stack := [], redo_stack := [] }

/-- `load_image` success path (src/inp.py lines 231–244), with the decoded
RGBA buffer supplied by the file-dialog/decode collaborators: stores the
new image and sets `self.mask = None`.  No other modelled field is
touched (in particular the undo/redo stacks and `display_scale` keep
their values — the source has no line clearing them here). -/
def load_image (st : AppState) (img : Img) : AppState :=
  { st with image := some img, mask := none }

/-- `update_brush_size` (src/inp.py lines 248–249). -/
def update_brush_size (st : AppState) (v : Nat) : AppState :=
  { st with brush_size := v }

/-- `start_drawing` (src/inp.py lines 251–262): no-op when no image is
loaded; otherwise sets `drawing`, records the pointer position, pushes a
copy of the current mask onto the undo stack only when a mask exists
(`if self.mask is not None`), and clears the redo stack. -/
def start_drawing (st : AppState) (ex ey : ℚ) : AppState :=
  if st.image = none then st
  else
    { st with
      drawing := true
      last_x := some ex
      last_y := some ey
      undo_stack :=
        (match st.mask with
         | some m => m :: st.undo_stack
         | none => st.undo_stack)
      redo_stack := [] }

/-- `draw` (src/inp.py lines 264–290): no-op unless `drawing` is set and an
image is loaded; lazily allocates a zero-filled mask of the image's size,
paints the rasterized segment with fill 255, and records the new last
pointer position.  `sel` stands for the pixel set the external rasterizer
covers for this segment. -/
def draw (st : AppState) (x y : ℚ) (sel : Nat → Bool) : AppState :=
  match st.drawing, st.image with
  | true, some img =>
    let m :=
      (match st.mask with
       | some m => m
       | none => Mask.zeroOf img.width img.height)
    { st with
      mask := some (m.paint sel)
      last_x := some x
      last_y := some y }
  | _, _ => st

/-- `stop_drawing` (src/inp.py lines 292–293): only resets the `drawing`
flag; no snapshot, no stack change. -/
def stop_drawing (st : AppState) : AppState :=
  { st with drawing := false }

/-- The width argument the source hands to `ImageDraw.line`
(src/inp.py line 283): `int(self.brush_size / self.display_scale)`.
Both operands are nonnegative, so Python's truncating `int()` is the
floor. -/
def strokeWidth (brush : Nat) (scale : ℚ) : Int :=
  ⌊(brush : ℚ) / scale⌋

/-- The stroke width as §4.2 of the spec describes it ("radius ≥ 1 pixel,
radius < 1 is clamped to 1"): the same computation but clamped below at 1.
This definition follows the spec's words, for comparison with
`strokeWidth`, which follows the source. -/
def strokeWidthSpec (brush : Nat) (scale : ℚ) : Int :=
  max 1 ⌊(brush : ℚ) / scale⌋

/-- `zoom` (src/inp.py lines 295–313): no-op when no image is loaded;
multiplies or divides the scale by 1.1 and clamps it with
`min(max(0.1, scale), 5.0)`. -/
def zoom (st : AppState) (zoomIn : Bool) : AppState :=
  if st.image = none then st
  else
    let s : ℚ :=
      if zoomIn then st.display_scale * (11 / 10) else st.display_scale / (11 / 10)
    { st with display_scale := min (max (1 / 10) s) 5 }

/-- `clear_mask` (src/inp.py lines 391–400): no-op when no mask exists;
otherwise pushes a copy of the mask onto the undo stack, clears the redo
stack, and sets the mask absent. -/
def clear_mask (st : AppState) : AppState :=
  match st.mask with
  | none => st
  | some m =>
    { st with undo_stack := m :: st.undo_stack, redo_stack := [], mask := none }

/-- `undo_last_stroke` (src/inp.py lines 402–411): no-op when the undo
stack is empty; otherwise pushes a copy of the current mask onto the redo
stack only when a mask exists (`if self.mask is not None` — nothing is
pushed for an absent mask), then pops the undo stack into the mask. -/
def undo_last_stroke (st : AppState) : AppState :=
  match st.undo_stack with
  | [] => st
  | m :: rest =>
    { st with
      redo_stack :=
        (match st.mask with
         | some cur => cur :: st.redo_stack
         | none => st.redo_stack)
      mask := some m
      undo_stack := rest }

/-- `redo_last_stroke` (src/inp.py lines 413–422), symmetric to undo. -/
def redo_last_stroke (st : AppState) : AppState :=
  match st.redo_stack with
  | [] => st
  | m :: rest =>
    { st with
      undo_stack :=
        (match st.mask with
         | some cur => cur :: st.undo_stack
         | none => st.undo_stack)
      mask := some m
      redo_stack := rest }

/-- Python's `str.strip()` on text modelled as a character list: drop
whitespace from both ends (used on the prompt at src/inp.py line 354). -/
def pyStrip (s : List Char) : List Char :=
  ((s.dropWhile Char.isWhitespace).reverse.dropWhile Char.isWhitespace).reverse

/-- `generate_inpainting` (src/inp.py lines 349–389).  The prompt texts
read from the Tk widgets are parameters, modelled as character lists so
that `strip` is computable; the external pipeline call (lines 372–379) is
a parameter too: `Except.ok` is the image it returns, `Except.error` is
the message of the exception it raises.  Returns the new state plus the
error message shown via `messagebox.showerror`, `none` on success.  The
source converts the returned PIL image with `.convert("RGBA")`, which
changes encoding, not dimensions or content in this model, so `img`
stands for that converted buffer.  Mutation of `self.image`/`self.mask`
happens only after the pipeline returns (lines 382–383); the
except-branch (lines 387–389) only reports. -/
def generate_inpainting (st : AppState) (prompt negative_prompt : List Char)
    (pipeline : Except String Img) : AppState × Option String :=
  if st.image = none ∨ st.mask = none then
    (st, some "Please load an image and draw a mask first")
  else if pyStrip prompt = [] then
    (st, some "Please enter a prompt")
  else
    match pipeline with
    | .ok img => ({ st with image := some img, mask := none }, none)
    | .error e => (st, some ("Generation failed: " ++ e))

/-- States reachable from the post-`__init__` state by the user-triggered
operations of the engine, with the external collaborators' contributions
(decoded buffers, rasterized pixel sets, pipeline outcomes, prompt text)
universally quantified. -/
inductive Reach : AppState → Prop
  | init : Reach initState
  | load (st : AppState) (img : Img) : Reach st → Reach (load_image st img)
  | brush (st : AppState) (v : Nat) : Reach st → Reach (update_brush_size st v)
  | start (st : AppState) (x y : ℚ) : Reach st → Reach (start_drawing st x y)
  | move (st : AppState) (x y : ℚ) (sel : Nat → Bool) :
      Reach st → Reach (draw st x y sel)
  | stop (st : AppState) : Reach st → Reach (stop_drawing st)
  | wheel (st : AppState) (b : Bool) : Reach st → Reach (zoom st b)
  | clear (st : AppState) : Reach st → Reach (clear_mask st)
  | undo (st : AppState) : Reach st → Reach (undo_last_stroke st)
  | redo (st : AppState) : Reach st → Reach (redo_last_stroke st)
  | gen (st : AppState) (p np : List Char) (r : Except String Img) :
      Reach st → Reach (generate_inpainting st p np r).1

/-! Concrete fixtures: a 1×1 image, a 2×2 image, and the states produced by
short user sessions, used for reachability arguments and witnesses. -/

/-- A 1×1 RGBA test image. -/
def imgA : Img := ⟨1, 1, [10, 20, 30, 255]⟩

/-- A 2×2 RGBA test image (different dimensions from `imgA`). -/
def imgB : Img := ⟨2, 2, List.replicate 16 40⟩

/-- A 2×2 solid-colour RGBA image, standing for a generation result. -/
def imgC : Img := ⟨2, 2, List.replicate 16 77⟩

/-- The 1×1 mask produced by a fully covering stroke on `imgA`. -/
def maskA : Mask := ⟨1, 1, [255]⟩

/-- Session: load `imgA`. -/
def stLoadA : AppState := load_image initState imgA

/-- Session: load `imgA`, then one complete stroke gesture. -/
def stStroke1 : AppState :=
  stop_drawing (draw (start_drawing stLoadA 0 0) 0 0 (fun _ => true))

/-- Session: after the first stroke, press the pointer down again (this is
the first point at which a mask copy lands on the undo stack). -/
def stBoth : AppState := start_drawing stStroke1 5 5

/-- Session: finish the second stroke gesture. -/
def stStroke2 : AppState := stop_drawing (draw stBoth 6 6 (fun _ => true))

/-- Session: after two strokes on `imgA`, load the differently-sized
`imgB`. -/
def stReload : AppState := load_image stStroke2 imgB

/-- Session: undo right after reloading `imgB`. -/
def stBadUndo : AppState := undo_last_stroke stReload

/-- Session: clear the mask after the first stroke. -/
def stCleared : AppState := clear_mask stStroke1

/-- Session: load `imgB` and draw one stroke on it. -/
def stDrawB : AppState :=
  draw (start_drawing (load_image initState imgB) 0 0) 0 0 (fun _ => true)

theorem reach_stLoadA : Reach stLoadA :=
  Reach.load _ _ Reach.init

theorem reach_stStroke1 : Reach stStroke1 :=
  Reach.stop _ (Reach.move _ 0 0 _ (Reach.start _ 0 0 reach_stLoadA))

theorem reach_stBoth : Reach stBoth :=
  Reach.start _ 5 5 reach_stStroke1

theorem reach_stStroke2 : Reach stStroke2 :=
  Reach.stop _ (Reach.move _ 6 6 _ reach_stBoth)

theorem reach_stReload : Reach stReload :=
  Reach.load _ _ reach_stStroke2

theorem reach_stBadUndo : Reach stBadUndo :=
  Reach.undo _ reach_stReload

theorem reach_stCleared : Reach stCleared :=
  Reach.clear _ reach_stStroke1

theorem reach_stDrawB : Reach stDrawB :=
  Reach.move _ 0 0 _ (Reach.start _ 0 0 (Reach.load _ _ Reach.init))

/-- C1: if the external generation collaborator raises during `generate`
after the preconditions passed, the Image, the Mask, and the Undo and Redo
stacks are identical to their pre-call values — indeed the whole modelled
state is unchanged, because `generate_inpainting` mutates `self.image` and
`self.mask` only after the pipeline call returns, and never touches the
stacks. -/
theorem generate_failure_preserves_state (st : AppState) (i : Img) (m : Mask)
    (p np : List Char) (e : String) (hi : st.image = some i)
    (hm : st.mask = some m) (hp : pyStrip p ≠ []) :
    (generate_inpainting st p np (Except.error e)).1 = st := by
  simp [generate_inpainting, hi, hm, hp]

theorem generate_failure_preserves_state_witness :
    (generate_inpainting stStroke1 ['c', 'a', 't'] ['b'] (Except.error "cuda oom")).1 =
      stStroke1 :=
  generate_failure_preserves_state stStroke1 imgA maskA ['c', 'a', 't'] ['b'] "cuda oom"
    (by decide) (by decide) (by decide)

/-- C2: the claim says a successful load resets both history stacks to
empty; the source's `load_image` (src/inp.py lines 231–244) contains no
statement clearing `undo_stack` or `redo_stack`.  Evaluated at a reachable
state holding one undo snapshot: after loading `imgB` the image is
replaced, the mask discarded, the scale kept — but the undo stack still
holds the old 1×1 snapshot. -/
theorem load_image_keeps_history :
    Reach stReload ∧
    stReload.image = some imgB ∧
    stReload.mask = none ∧
    stReload.display_scale = stStroke2.display_scale ∧
    stReload.undo_stack = [maskA] :=
  ⟨reach_stReload, by decide, by decide, by decide, by decide⟩

/-- C5: the claim says every reachable state with a Mask present has Mask
dimensions equal to the Image's.  Because `load_image` leaves the history
stacks alone, undoing right after loading a differently-sized image
restores a stale 1×1 mask under the new 2×2 image. -/
theorem stale_mask_dimension_bug :
    Reach stBadUndo ∧
    stBadUndo.image = some imgB ∧
    stBadUndo.mask = some maskA ∧
    maskA.width ≠ imgB.width ∧
    maskA.height ≠ imgB.height :=
  ⟨reach_stBadUndo, by decide, by decide, by decide, by decide⟩

/-! Iterated undo and redo, for the round-trip property. -/

/-- Apply `undo_last_stroke` `n` times in sequence. -/
def undoN : Nat → AppState → AppState
  | 0, st => st
  | n + 1, st => undoN n (undo_last_stroke st)

/-- Apply `redo_last_stroke` `n` times in sequence. -/
def redoN : Nat → AppState → AppState
  | 0, st => st
  | n + 1, st => redoN n (redo_last_stroke st)

/-- Peeling the last application instead of the first. -/
theorem redoN_succ_outer (n : Nat) :
    ∀ st : AppState, redoN (n + 1) st = redo_last_stroke (redoN n st) := by
  induction n with
  | zero => intro st; rfl
  | succ n ih => intro st; exact ih (redo_last_stroke st)

/-- When a mask is present and the undo stack is non-empty, a redo exactly
cancels an undo (the popped snapshot goes back, the saved current mask
returns). -/
theorem redo_cancels_undo (image : Option Img) (m u : Mask) (us rs : List Mask)
    (scale : ℚ) (dr : Bool) (br : Nat) (lx ly : Option ℚ) :
    redo_last_stroke (undo_last_stroke
      ⟨image, some m, scale, dr, br, lx, ly, u :: us, rs⟩) =
      ⟨image, some m, scale, dr, br, lx, ly, u :: us, rs⟩ := rfl

/-- `n` undos followed by `n` redos restore the entire state, provided a
mask is present at the start and the undo stack is deep enough.  (The
snapshots on the stacks are always present masks, so after each undo the
mask is again present and the inverse steps compose.) -/
theorem redoN_undoN_eq (n : Nat) :
    ∀ st : AppState, (∃ m, st.mask = some m) → n ≤ st.undo_stack.length →
      redoN n (undoN n st) = st := by
  induction n with
  | zero => intro st _ _; rfl
  | succ n ih =>
    rintro ⟨image, mask, scale, dr, br, lx, ly, us, rs⟩ ⟨m, hm⟩ hn
    simp only at hm
    subst hm
    cases us with
    | nil => simp at hn
    | cons u rest =>
      have hlen : n ≤ rest.length := by
        simp only [List.length_cons] at hn
        omega
      have hmid := ih ⟨image, some u, scale, dr, br, lx, ly, rest, m :: rs⟩
        ⟨u, rfl⟩ hlen
      calc redoN (n + 1) (undoN (n + 1)
            (⟨image, some m, scale, dr, br, lx, ly, u :: rest, rs⟩ : AppState))
          = redo_last_stroke (redoN n (undoN n
              ⟨image, some u, scale, dr, br, lx, ly, rest, m :: rs⟩)) := by
            rw [redoN_succ_outer]; rfl
        _ = redo_last_stroke ⟨image, some u, scale, dr, br, lx, ly, rest, m :: rs⟩ := by
            rw [hmid]
        _ = ⟨image, some m, scale, dr, br, lx, ly, u :: rest, rs⟩ := rfl

/-- C3 counterexample: a reachable state (stroke, then clear) with the mask
absent and one undo snapshot.  One undo followed by one redo does not give
back the pre-undo mask: because the mask was absent, `undo_last_stroke`
pushed nothing onto the redo stack, so the redo is a no-op and the restored
stroke mask stays. -/
theorem undo_redo_roundtrip_cex :
    Reach stCleared ∧
    stCleared.mask = none ∧
    stCleared.undo_stack.length = 1 ∧
    (redoN 1 (undoN 1 stCleared)).mask = some maskA :=
  ⟨reach_stCleared, by decide, by decide, by decide⟩

/-- C3 (amended): `n` undos followed by `n` redos restore the pre-undo mask
provided a mask is present before the undos (with an absent mask the first
undo records nothing on the redo stack and the round trip fails, see the
counterexample); and an undo on a non-empty undo stack pushes the current
mask onto the redo stack exactly when one is present. -/
theorem undo_redo_roundtrip (st : AppState) (n : Nat) (m : Mask)
    (hm : st.mask = some m) (hn : n ≤ st.undo_stack.length) :
    (redoN n (undoN n st)).mask = some m ∧
    (st.undo_stack ≠ [] → (undo_last_stroke st).redo_stack = m :: st.redo_stack) := by
  constructor
  · rw [redoN_undoN_eq n st ⟨m, hm⟩ hn, hm]
  · intro hne
    cases hu : st.undo_stack with
    | nil => exact absurd hu hne
    | cons u rest => simp [undo_last_stroke, hu, hm]

theorem undo_redo_roundtrip_witness :
    (redoN 1 (undoN 1 stBoth)).mask = some maskA ∧
    (stBoth.undo_stack ≠ [] →
      (undo_last_stroke stBoth).redo_stack = maskA :: stBoth.redo_stack) :=
  undo_redo_roundtrip stBoth 1 maskA (by decide) (by decide)

/-- C4 counterexample: a reachable state with an image loaded but no mask
yet.  The claim says pointer-down pushes the current mask or an
absent-marker onto the undo stack; in the source the push is guarded by
`if self.mask is not None`, so on the first stroke of a session nothing at
all is pushed and the undo stack stays empty. -/
theorem stroke_snapshot_cex :
    Reach stLoadA ∧
    stLoadA.image ≠ none ∧
    stLoadA.mask = none ∧
    (start_drawing stLoadA 0 0).undo_stack = [] :=
  ⟨reach_stLoadA, by decide, by decide, by decide⟩

/-- C4 (amended): with an image loaded, pointer-down clears the redo stack
and pushes the current mask onto the undo stack exactly when a mask exists
(nothing is pushed when the mask is absent), and pointer-up takes no
snapshot: it changes neither stacks nor mask. -/
theorem stroke_snapshot_behavior (st : AppState) (x y : ℚ)
    (h : st.image ≠ none) :
    (∀ m, st.mask = some m → (start_drawing st x y).undo_stack = m :: st.undo_stack) ∧
    (st.mask = none → (start_drawing st x y).undo_stack = st.undo_stack) ∧
    (start_drawing st x y).redo_stack = [] ∧
    (stop_drawing st).undo_stack = st.undo_stack ∧
    (stop_drawing st).redo_stack = st.redo_stack ∧
    (stop_drawing st).mask = st.mask := by
  refine ⟨?_, ?_, ?_, rfl, rfl, rfl⟩
  · intro m hm
    simp [start_drawing, h, hm]
  · intro hm
    simp [start_drawing, h, hm]
  · simp [start_drawing, h]

theorem stroke_snapshot_behavior_witness :
    (∀ m, stBoth.mask = some m →
      (start_drawing stBoth 1 1).undo_stack = m :: stBoth.undo_stack) ∧
    (stBoth.mask = none → (start_drawing stBoth 1 1).undo_stack = stBoth.undo_stack) ∧
    (start_drawing stBoth 1 1).redo_stack = [] ∧
    (stop_drawing stBoth).undo_stack = stBoth.undo_stack ∧
    (stop_drawing stBoth).redo_stack = stBoth.redo_stack ∧
    (stop_drawing stBoth).mask = stBoth.mask :=
  stroke_snapshot_behavior stBoth 1 1 (by decide)

/-- C6 counterexample: `generate_inpainting` contains no dimension check.
At a reachable state whose image is 2×2, a pipeline result of 1×1 is
committed wholesale: no error of any kind is reported and the 1×1 result
becomes the new image, where the claim demands a `DimensionMismatchError`
and an unchanged state. -/
theorem generate_dimension_check_cex :
    Reach stDrawB ∧
    stDrawB.image = some imgB ∧
    imgA.width ≠ imgB.width ∧
    (generate_inpainting stDrawB ['s', 'k', 'y'] [] (Except.ok imgA)).2 = none ∧
    (generate_inpainting stDrawB ['s', 'k', 'y'] [] (Except.ok imgA)).1.image =
      some imgA :=
  ⟨reach_stDrawB, by decide, by decide, by decide, by decide⟩

/-- C6 (amended): the source never compares the dimensions of the pipeline
result against the outgoing image: whenever the preconditions pass and the
external call returns, the returned image — of whatever dimensions —
becomes the new image, the mask is cleared, and no error is reported. -/
theorem generate_success_ignores_dimensions (st : AppState) (i : Img) (m : Mask)
    (p np : List Char) (img : Img) (hi : st.image = some i)
    (hm : st.mask = some m) (hp : pyStrip p ≠ []) :
    generate_inpainting st p np (Except.ok img) =
      ({ st with image := some img, mask := none }, none) := by
  simp [generate_inpainting, hi, hm, hp]

theorem generate_success_ignores_dimensions_witness :
    generate_inpainting stDrawB ['s', 'k', 'y'] [] (Except.ok imgA) =
      ({ stDrawB with image := some imgA, mask := none }, none) :=
  generate_success_ignores_dimensions stDrawB imgB (Mask.zeroOf 2 2 |>.paint (fun _ => true))
    ['s', 'k', 'y'] [] imgA (by decide) (by decide) (by decide)

/-- C7 counterexample: the source reports the same single error for a
missing image and for a missing mask (src/inp.py lines 350–351), so there
are only two distinct precondition reasons, not the three the claim
states: `initState` has no image, `stLoadA` has an image but no mask, and
`generate_inpainting` answers both with the identical message. -/
theorem generate_precondition_reasons_cex :
    initState.image = none ∧
    stLoadA.image ≠ none ∧
    stLoadA.mask = none ∧
    (generate_inpainting initState ['p'] [] (Except.error "x")).2 =
      (generate_inpainting stLoadA ['p'] [] (Except.error "x")).2 :=
  ⟨rfl, by decide, by decide, by decide⟩

/-- C7 (amended): `generate_inpainting` checks the preconditions before
the external call and on violation leaves the state unchanged, performs no
external call (its result does not depend on the pipeline outcome), and
fails fast — but with only two distinct reasons: one shared message for a
missing image or missing mask, and a second message for an empty trimmed
prompt. -/
theorem generate_precondition_behavior (st : AppState) (p np : List Char)
    (r r2 : Except String Img) :
    (st.image = none ∨ st.mask = none →
      generate_inpainting st p np r =
        (st, some "Please load an image and draw a mask first")) ∧
    (st.image ≠ none → st.mask ≠ none → pyStrip p = [] →
      generate_inpainting st p np r = (st, some "Please enter a prompt")) ∧
    ((st.image = none ∨ st.mask = none ∨ pyStrip p = []) →
      generate_inpainting st p np r = generate_inpainting st p np r2) := by
  refine ⟨?_, ?_, ?_⟩
  · intro h
    simp only [generate_inpainting]
    rw [if_pos h]
  · intro h1 h2 hp
    simp only [generate_inpainting]
    rw [if_neg (not_or.mpr ⟨h1, h2⟩), if_pos hp]
  · intro h
    by_cases hc : st.image = none ∨ st.mask = none
    · simp only [generate_inpainting]
      rw [if_pos hc, if_pos hc]
    · have hp : pyStrip p = [] := by
        rcases h with h | h | h
        · exact absurd (Or.inl h) hc
        · exact absurd (Or.inr h) hc
        · exact h
      simp only [generate_inpainting]
      rw [if_neg hc, if_neg hc, if_pos hp, if_pos hp]

theorem generate_precondition_behavior_witness :
    (initState.image = none ∨ initState.mask = none →
      generate_inpainting initState ['p'] [] (Except.error "x") =
        (initState, some "Please load an image and draw a mask first")) ∧
    (initState.image ≠ none → initState.mask ≠ none → pyStrip ['p'] = [] →
      generate_inpainting initState ['p'] [] (Except.error "x") =
        (initState, some "Please enter a prompt")) ∧
    ((initState.image = none ∨ initState.mask = none ∨ pyStrip ['p'] = []) →
      generate_inpainting initState ['p'] [] (Except.error "x") =
        generate_inpainting initState ['p'] [] (Except.ok imgA)) :=
  generate_precondition_behavior initState ['p'] [] (Except.error "x") (Except.ok imgA)

/-- C8: when the preconditions pass and the external collaborator returns
an image of matching dimensions, that image becomes the new Image, the
Mask becomes absent, no error is reported, and the view scale is
untouched. -/
theorem generate_success_commits (st : AppState) (i : Img) (m : Mask)
    (p np : List Char) (img : Img) (hi : st.image = some i)
    (hm : st.mask = some m) (hp : pyStrip p ≠ [])
    (hw : img.width = i.width) (hh : img.height = i.height) :
    (generate_inpainting st p np (Except.ok img)).1.image = some img ∧
    (generate_inpainting st p np (Except.ok img)).1.mask = none ∧
    (generate_inpainting st p np (Except.ok img)).1.display_scale =
      st.display_scale ∧
    (generate_inpainting st p np (Except.ok img)).2 = none := by
  simp [generate_inpainting, hi, hm, hp]

theorem generate_success_commits_witness :
    (generate_inpainting stDrawB ['s', 'u', 'n'] [] (Except.ok imgC)).1.image =
      some imgC ∧
    (generate_inpainting stDrawB ['s', 'u', 'n'] [] (Except.ok imgC)).1.mask = none ∧
    (generate_inpainting stDrawB ['s', 'u', 'n'] [] (Except.ok imgC)).1.display_scale =
      stDrawB.display_scale ∧
    (generate_inpainting stDrawB ['s', 'u', 'n'] [] (Except.ok imgC)).2 = none :=
  generate_success_commits stDrawB imgB (Mask.zeroOf 2 2 |>.paint (fun _ => true))
    ['s', 'u', 'n'] [] imgC (by decide) (by decide) (by decide) (by decide) (by decide)

/-- C9 counterexample: the width the source passes to the rasterizer for
brush size 1 at display scale 5 (both reachable: the brush slider starts
at 1 and the zoom clamp allows exactly 5.0) is 0, not the 1 the claim's
clamping rule would give. -/
theorem stroke_width_clamp_cex :
    strokeWidth 1 5 = 0 ∧ strokeWidthSpec 1 5 = 1 := by
  have h0 : (⌊(1 : ℚ) / 5⌋ : Int) = 0 := by
    rw [Int.floor_eq_zero_iff]
    constructor <;> norm_num
  constructor
  · show (⌊((1 : Nat) : ℚ) / 5⌋ : Int) = 0
    rw [Nat.cast_one, h0]
  · show max 1 (⌊((1 : Nat) : ℚ) / 5⌋ : Int) = 1
    rw [Nat.cast_one, h0]
    decide

/-- C9 (amended): the source applies no clamping to the stroke width: the
value handed to the rasterizer is the truncation of
`brush_size / display_scale`, which is 0 — a width below 1 — exactly when
the brush size is smaller than the display scale; handling of the
resulting zero-width request is left to the external rasterizer. -/
theorem stroke_width_zero_iff (b : Nat) (s : ℚ) (hs : 0 < s) :
    strokeWidth b s = 0 ↔ (b : ℚ) < s := by
  have h1 : (0 : ℚ) ≤ (b : ℚ) / s := div_nonneg (Nat.cast_nonneg b) hs.le
  rw [strokeWidth, Int.floor_eq_zero_iff, Set.mem_Ico, div_lt_one hs]
  simp [h1]

theorem stroke_width_zero_iff_witness :
    (0 : ℚ) < 5 ∧ (strokeWidth 1 5 = 0 ↔ ((1 : Nat) : ℚ) < 5) :=
  ⟨by norm_num, stroke_width_zero_iff 1 5 (by norm_num)⟩

/-! The binary-mask invariant: every mask value ever held in the live mask
or in a history snapshot is exactly 0 or exactly 255. -/

/-- Every pixel of the mask is 0 or 255. -/
def Mask.binary (m : Mask) : Prop :=
  ∀ v ∈ m.data, v = 0 ∨ v = 255

instance (m : Mask) : Decidable m.binary := by
  unfold Mask.binary
  infer_instance

/-- The live mask (when present) and every snapshot on either stack are
binary. -/
def HistoryBinary (st : AppState) : Prop :=
  (∀ m, st.mask = some m → m.binary) ∧
  (∀ m ∈ st.undo_stack, m.binary) ∧
  (∀ m ∈ st.redo_stack, m.binary)

theorem zeroOf_binary (w h : Nat) : (Mask.zeroOf w h).binary := by
  intro v hv
  exact Or.inl (List.eq_of_mem_replicate hv)

theorem paintData_binary (sel : Nat → Bool) :
    ∀ (l : List Nat) (i : Nat), (∀ v ∈ l, v = 0 ∨ v = 255) →
      ∀ v ∈ paintData sel i l, v = 0 ∨ v = 255 := by
  intro l
  induction l with
  | nil =>
    intro i _ v hv
    simp [paintData] at hv
  | cons a t ih =>
    intro i h v hv
    rw [paintData] at hv
    rcases List.mem_cons.mp hv with hv | hv
    · by_cases hsel : sel i
      · rw [hv, if_pos hsel]
        exact Or.inr rfl
      · rw [hv, if_neg hsel]
        exact h a (List.mem_cons_self a t)
    · exact ih (i + 1) (fun w hw => h w (List.mem_cons_of_mem a hw)) v hv

theorem paint_binary (m : Mask) (sel : Nat → Bool) (h : m.binary) :
    (m.paint sel).binary :=
  paintData_binary sel m.data 0 h

/-- Every reachable state satisfies the binary-mask invariant: strokes
only write 255 onto zero-initialised buffers, and clear/undo/redo only
move such buffers between the live mask and the stacks. -/
theorem reach_historyBinary (st : AppState) (h : Reach st) : HistoryBinary st := by
  induction h with
  | init =>
    refine ⟨?_, ?_, ?_⟩ <;> intro m hm <;> simp [initState] at hm
  | load st img _ ih =>
    refine ⟨?_, ih.2.1, ih.2.2⟩
    intro m hm
    simp [load_image] at hm
  | brush st v _ ih => exact ih
  | start st x y _ ih =>
    by_cases himg : st.image = none
    · simpa [start_drawing, himg] using ih
    · cases hm : st.mask with
      | none =>
        refine ⟨?_, ?_, ?_⟩
        · intro m hmm
          apply ih.1 m
          rw [← hmm]
          simp [start_drawing, himg]
        · intro m hmem
          apply ih.2.1 m
          simpa [start_drawing, himg, hm] using hmem
        · intro m hmem
          simp [start_drawing, himg] at hmem
      | some m0 =>
        refine ⟨?_, ?_, ?_⟩
        · intro m hmm
          apply ih.1 m
          rw [← hmm]
          simp [start_drawing, himg]
        · intro m hmem
          simp only [start_drawing, himg, if_false, hm] at hmem
          rcases List.mem_cons.mp hmem with rfl | hmem
          · exact ih.1 m hm
          · exact ih.2.1 m hmem
        · intro m hmem
          simp [start_drawing, himg] at hmem
  | move st x y sel _ ih =>
    cases hdr : st.drawing with
    | false =>
      cases himg : st.image with
      | none => simpa [draw, hdr, himg] using ih
      | some img => simpa [draw, hdr, himg] using ih
    | true =>
      cases himg : st.image with
      | none => simpa [draw, hdr, himg] using ih
      | some img =>
        refine ⟨?_, ?_, ?_⟩
        · intro m hmm
          simp only [draw, hdr, himg] at hmm
          cases hm : st.mask with
          | none =>
            rw [hm] at hmm
            simp at hmm
            rw [← hmm]
            exact paint_binary _ sel (zeroOf_binary img.width img.height)
          | some m0 =>
            rw [hm] at hmm
            simp at hmm
            rw [← hmm]
            exact paint_binary _ sel (ih.1 m0 hm)
        · intro m hmem
          apply ih.2.1 m
          simpa [draw, hdr, himg] using hmem
        · intro m hmem
          apply ih.2.2 m
          simpa [draw, hdr, himg] using hmem
  | stop st _ ih => exact ih
  | wheel st b _ ih =>
    by_cases himg : st.image = none
    · simpa [zoom, himg] using ih
    · refine ⟨?_, ?_, ?_⟩
      · intro m hmm
        apply ih.1 m
        rw [← hmm]
        simp [zoom, himg]
      · intro m hmem
        apply ih.2.1 m
        simpa [zoom, himg] using hmem
      · intro m hmem
        apply ih.2.2 m
        simpa [zoom, himg] using hmem
  | clear st _ ih =>
    cases hm : st.mask with
    | none => simpa [clear_mask, hm] using ih
    | some m0 =>
      refine ⟨?_, ?_, ?_⟩
      · intro m hmm
        simp [clear_mask, hm] at hmm
      · intro m hmem
        simp only [clear_mask, hm] at hmem
        rcases List.mem_cons.mp hmem with rfl | hmem
        · exact ih.1 m hm
        · exact ih.2.1 m hmem
      · intro m hmem
        simp [clear_mask, hm] at hmem
  | undo st _ ih =>
    cases hu : st.undo_stack with
    | nil => simpa [undo_last_stroke, hu] using ih
    | cons u rest =>
      refine ⟨?_, ?_, ?_⟩
      · intro m hmm
        simp [undo_last_stroke, hu] at hmm
        rw [← hmm]
        exact ih.2.1 u (by rw [hu]; exact List.mem_cons_self u rest)
      · intro m hmem
        simp only [undo_last_stroke, hu] at hmem
        exact ih.2.1 m (by rw [hu]; exact List.mem_cons_of_mem u hmem)
      · intro m hmem
        simp only [undo_last_stroke, hu] at hmem
        cases hm : st.mask with
        | none =>
          rw [hm] at hmem
          exact ih.2.2 m hmem
        | some cur =>
          rw [hm] at hmem
          rcases List.mem_cons.mp hmem with rfl | hmem
          · exact ih.1 m hm
          · exact ih.2.2 m hmem
  | redo st _ ih =>
    cases hr : st.redo_stack with
    | nil => simpa [redo_last_stroke, hr] using ih
    | cons u rest =>
      refine ⟨?_, ?_, ?_⟩
      · intro m hmm
        simp [redo_last_stroke, hr] at hmm
        rw [← hmm]
        exact ih.2.2 u (by rw [hr]; exact List.mem_cons_self u rest)
      · intro m hmem
        simp only [redo_last_stroke, hr] at hmem
        cases hm : st.mask with
        | none =>
          rw [hm] at hmem
          exact ih.2.1 m hmem
        | some cur =>
          rw [hm] at hmem
          rcases List.mem_cons.mp hmem with rfl | hmem
          · exact ih.1 m hm
          · exact ih.2.1 m hmem
      · intro m hmem
        simp only [redo_last_stroke, hr] at hmem
        exact ih.2.2 m (by rw [hr]; exact List.mem_cons_of_mem u hmem)
  | gen st p np r _ ih =>
    by_cases hc : st.image = none ∨ st.mask = none
    · simpa [generate_inpainting, hc] using ih
    · by_cases hp : pyStrip p = []
      · simpa [generate_inpainting, hc, hp] using ih
      · cases r with
        | error e => simpa [generate_inpainting, hc, hp] using ih
        | ok img =>
          refine ⟨?_, ?_, ?_⟩
          · intro m hmm
            simp [generate_inpainting, hc, hp] at hmm
          · intro m hmem
            apply ih.2.1 m
            simpa [generate_inpainting, hc, hp] using hmem
          · intro m hmem
            apply ih.2.2 m
            simpa [generate_inpainting, hc, hp] using hmem

/-- C10: in every reachable state whose mask is present, every mask pixel
is exactly 0 or exactly 255 — the partial-intensity values the spec's
compositor blends proportionally never occur. -/
theorem reachable_mask_binary (st : AppState) (m : Mask) (hr : Reach st)
    (hm : st.mask = some m) : Mask.binary m :=
  (reach_historyBinary st hr).1 m hm

theorem reachable_mask_binary_witness : Mask.binary maskA :=
  reachable_mask_binary stStroke1 maskA reach_stStroke1 (by decide)
